import Mathlib

/-!
# Verification of the `blackdrops` learned-dynamics-model component

Shallow embedding of `src/include/medrops/gp_model.hpp`:

* `medrops::GPModel` (the multi-output regression ensemble) becomes
  `GPModelState` together with the pure transition functions `learn`,
  `predictm`, `predict`, `saveData`, `initState`.
* `blackdrops::MIModel` (the mean-function-only variant) becomes
  `MIState` with `MIpredict`.

The underlying single-output Gaussian-process regressor (`limbo`'s GP) is an
external collaborator: it is modelled by an abstract type `GP` together with a
record of operations `GPOps` (constructor, `compute`, `optimize_hyperparams`,
`query`, `samples`), where a fit step that fails numerically is modelled by
`Option`.  Real-valued data is modelled over `ℚ`; vectors are `List ℚ`,
matrices are row lists `List (List ℚ)`.

Undefined behaviour of the C++ (out-of-bounds element access on an empty
vector, failed Eigen dimension assertions) is modelled by the dedicated
result `LearnResult.crash`: the code performs no input validation, so these
situations abort the process rather than signal a defined error.
-/

set_option autoImplicit false

attribute [local semireducible] Rat.add Rat.mul Rat.inv

namespace Blackdrops

/-- One observed transition: `(state, action, target)` — the element type of
the `observations` vector passed to `GPModel::learn`. -/
structure Transition where
  state : List ℚ
  action : List ℚ
  target : List ℚ
  deriving DecidableEq, Repr, Inhabited

/-- Static parameters of the `GPModel` template (`Params` in the C++):
`model_pred_dim`, `model_input_dim`, `action_dim` and the uniform GP noise
level `gp_model::noise`. -/
structure BParams where
  model_pred_dim : Nat
  model_input_dim : Nat
  action_dim : Nat
  noise : ℚ
  deriving DecidableEq, Repr

/-- The external scalar-regressor capability (`limbo`'s GP, kept opaque):
construction with an input dimension, `compute` (fit on samples, one target
column and a uniform noise level; `none` models a numerical fit failure /
thrown exception), hyperparameter optimisation (may also fail), `query`
returning a (length-1) mean vector and a scalar variance, and the `samples`
accessor returning the training inputs the regressor was fit on. -/
structure GPOps (GP : Type) where
  make : Nat → GP
  compute : GP → List (List ℚ) → List ℚ → ℚ → Option GP
  optimize : GP → Option GP
  query : GP → List ℚ → List ℚ × ℚ
  samples : GP → List (List ℚ)

/-- The spec's contract for the scalar regressor (`§6`): after a successful
fit, `samples()` returns exactly the training inputs it was fit on, and
hyperparameter optimisation does not change them. -/
structure GPContract {GP : Type} (ops : GPOps GP) : Prop where
  compute_samples : ∀ g s t n g', ops.compute g s t n = some g' → ops.samples g' = s
  optimize_samples : ∀ g g', ops.optimize g = some g' → ops.samples g' = ops.samples g

/-- The mutable state of `medrops::GPModel`: the regressor vector
`_gp_models`, the cached target matrix `_observations`, and the diagnostics
`_means`, `_sigmas`, `_limits`. -/
structure GPModelState (GP : Type) where
  gp_models : List GP
  observations : List (List ℚ)
  means : List ℚ
  sigmas : List ℚ
  limits : List ℚ
  deriving DecidableEq, Repr

/-- Result of a `learn` call.  `ok` is a normal return, `fitFailed` a call
that aborted with an exception out of the parallel fit fan-out (the state it
carries is the object state the exception leaves behind), and `crash` models
undefined behaviour (out-of-bounds access / failed Eigen assertion).
`emptyInputError` and `dimensionMismatchError` are the error taxonomy of the
specification (§7); the source never produces them — they are included so
that claims about them can be stated. -/
inductive LearnResult (GP : Type) where
  | ok (st : GPModelState GP)
  | fitFailed (st : GPModelState GP)
  | emptyInputError
  | dimensionMismatchError
  | crash
  deriving DecidableEq, Repr

/-- The input sample assembled from one transition inside `learn`'s loop:
`s.head(st.size()) = st; s.tail(act.size()) = act` — the literal
concatenation of state and action. -/
def sampleOf (t : Transition) : List ℚ :=
  t.state ++ t.action

/-- Column `j` of a row-major matrix (`m.col(j)` / `_to_vector(obs.col(i))`). -/
def column (m : List (List ℚ)) (j : Nat) : List ℚ :=
  m.map (fun r => r.getD j 0)

/-- Number of columns of a row-major matrix (all rows have equal length in
every state the code builds). -/
def ncols (m : List (List ℚ)) : Nat :=
  (m.headD []).length

/-- Arithmetic mean of a list (`Eigen`'s `.mean()`: sum divided by size). -/
def listMean (xs : List ℚ) : ℚ :=
  xs.sum / xs.length

/-- Column-wise arithmetic mean (`samp.colwise().mean()`). -/
def colwiseMean (m : List (List ℚ)) : List ℚ :=
  (List.range (ncols m)).map (fun j => listMean (column m j))

/-- Element-wise absolute value of a matrix (`samp.array().abs()`). -/
def absMat (m : List (List ℚ)) : List (List ℚ) :=
  m.map (fun r => r.map (fun q => |q|))

/-- Insert into a sorted list (helper for the percentile computation). -/
def insertQ (x : ℚ) : List ℚ → List ℚ
  | [] => [x]
  | y :: ys => if x ≤ y then x :: y :: ys else y :: insertQ x ys

/-- Insertion sort on `ℚ` (helper for the percentile computation). -/
def sortQ : List ℚ → List ℚ
  | [] => []
  | x :: xs => insertQ x (sortQ xs)

/-- Modelled from the spec: the `Eigen::percentile` helper used by `learn`
is declared in a header that is not under `src/`; the spec (§4.2) describes
it as the p-th percentile of each column, realised here as the nearest-rank
percentile: the element of rank `⌈p·n/100⌉` (at least 1) of the sorted
list. -/
def percentileOfList (xs : List ℚ) (p : Nat) : ℚ :=
  let n := xs.length
  let rank := max 1 ((p * n + 99) / 100)
  (sortQ xs).getD (min (rank - 1) (n - 1)) 0

/-- Modelled from the spec: column-wise percentile of a matrix — one entry
per column (`Eigen::percentile(samp.array().abs(), p)`). -/
def colwisePercentile (m : List (List ℚ)) (p : Nat) : List ℚ :=
  (List.range (ncols m)).map (fun j => percentileOfList (column m j) p)

/-- The robust magnitude limits computed by `learn` (lines 49–51):
`pl = percentile(|samp|, 5)`, `ph = percentile(|samp|, 95)`,
`limits = pl.max(ph)` element-wise. -/
def limitsOf (samp : List (List ℚ)) : List ℚ :=
  List.zipWith max (colwisePercentile (absMat samp) 5) (colwisePercentile (absMat samp) 95)

/-- The `samp` block inside `learn` (line 46): the assembled sample matrix
restricted to its first `model_input_dim + action_dim` columns
(`data.block(0, 0, data.rows(), model_input_dim + action_dim)`). -/
def sampBlock (P : BParams) (tr : List Transition) : List (List ℚ) :=
  (tr.map sampleOf).map (List.take (P.model_input_dim + P.action_dim))

/-- One dimension's fit step inside the parallel fan-out:
`_gp_models[i]->compute(samples, col, noises, false)` followed by
`_gp_models[i]->optimize_hyperparams()`; `none` models a thrown
`FitFailureError`. -/
def fitDim {GP : Type} (ops : GPOps GP) (samples : List (List ℚ)) (noise : ℚ)
    (g : GP) (col : List ℚ) : Option GP :=
  (ops.compute g samples col noise).bind ops.optimize

/-- The fit fan-out over the target columns (a sequential linearisation of
the `tbb::parallel_for`): each regressor is fitted on its column; on the
first failure the exception propagates and the regressor list is left with
the already-updated entries (`Except.error`). -/
def fitModels {GP : Type} (ops : GPOps GP) (samples : List (List ℚ)) (noise : ℚ) :
    List GP → List (List ℚ) → Except (List GP) (List GP)
  | ms, [] => Except.ok ms
  | [], _ :: _ => Except.ok []
  | g :: gs, c :: cs =>
    match fitDim ops samples noise g c with
    | none => Except.error (g :: gs)
    | some g' =>
      match fitModels ops samples noise gs cs with
      | Except.ok rest => Except.ok (g' :: rest)
      | Except.error rest => Except.error (g' :: rest)

/-- `GPModel::init()`: a fresh vector of `model_pred_dim` regressors, each
constructed with `model_input_dim` inputs. -/
def initModels {GP : Type} (P : BParams) (ops : GPOps GP) : List GP :=
  (List.range P.model_pred_dim).map (fun _ => ops.make P.model_input_dim)

/-- The state established by the `GPModel` constructor: fresh regressors,
empty cached target matrix, empty diagnostics. -/
def initState {GP : Type} (P : BParams) (ops : GPOps GP) : GPModelState GP :=
  ⟨initModels P ops, [], [], [], []⟩

/-- `GPModel::learn(observations, only_limits)` — translated line by line
from `gp_model.hpp` (the binary-snapshot write and the console prints are
pure side effects outside the object state and are not represented).
`sig` stands for the external `Eigen::colwise_sig` helper (declared outside
`src/`), kept opaque since no property depends on its value.

* `observations[0]` on an empty input is out-of-bounds (`crash`);
* `obs.row(i) = pred` with a target length differing from the first fails an
  Eigen assertion (`crash`), as does `_to_matrix` on samples of unequal
  length and the `data.block`/`data2.block` calls when the sample width or
  the target width does not match the `Params` dimensions;
* `_observations`, `_means`, `_sigmas`, `_limits` are assigned before the
  `only_limits` early return;
* on the fitting path the code first calls `init()` — discarding the previous
  regressors — and then fits each fresh regressor on its target column. -/
def learn {GP : Type} (P : BParams) (ops : GPOps GP) (sig : List (List ℚ) → List ℚ)
    (st : GPModelState GP) (tr : List Transition) (only_limits : Bool) : LearnResult GP :=
  match tr with
  | [] => LearnResult.crash
  | t0 :: _ =>
    if tr.any (fun t => t.target.length != t0.target.length) then LearnResult.crash
    else
      let samples := tr.map sampleOf
      let obs := tr.map Transition.target
      let s0len := t0.state.length + t0.action.length
      if samples.any (fun s => s.length != s0len) then LearnResult.crash
      else if s0len < P.model_input_dim + P.action_dim then LearnResult.crash
      else
        let samp := sampBlock P tr
        let st1 : GPModelState GP :=
          ⟨st.gp_models, obs, colwiseMean samp, sig samp, limitsOf samp⟩
        if only_limits then LearnResult.ok st1
        else if s0len != P.model_input_dim + P.action_dim
                || t0.target.length != P.model_pred_dim then LearnResult.crash
        else
          let fresh := initModels P ops
          let cols := (List.range t0.target.length).map (fun j => column obs j)
          match fitModels ops samples P.noise fresh cols with
          | Except.ok ms =>
            LearnResult.ok ⟨ms, obs, colwiseMean samp, sig samp, limitsOf samp⟩
          | Except.error ms =>
            LearnResult.fitFailed ⟨ms, obs, colwiseMean samp, sig samp, limitsOf samp⟩

/-- `GPModel::predictm(x)`: fan the query out to every regressor; entry `i`
of the mean vector is `m(0)` of regressor `i`'s answer, entry `i` of the
variance vector is its scalar variance. -/
def predictm {GP : Type} (ops : GPOps GP) (st : GPModelState GP) (x : List ℚ) :
    List ℚ × List ℚ :=
  (st.gp_models.map (fun g => (ops.query g x).1.headD 0),
   st.gp_models.map (fun g => (ops.query g x).2))

/-- `GPModel::predict(x)`: the mean vector of `predictm` together with the
`.mean()` of its variance vector. -/
def predict {GP : Type} (ops : GPOps GP) (st : GPModelState GP) (x : List ℚ) :
    List ℚ × ℚ :=
  let p := predictm ops st x
  (p.1, listMean p.2)

/-- Plain concatenation of a list of strings. -/
def catJoin : List String → String
  | [] => ""
  | x :: xs => x ++ catJoin xs

/-- Concatenation with a separator before every element but the first — the
`if (i != 0) stream << sep` pattern of `save_data`. -/
def sepJoin (sep : String) : List String → String
  | [] => ""
  | [x] => x
  | x :: y :: xs => x ++ sep ++ sepJoin sep (y :: xs)

/-- One output line of `GPModel::save_data`: every sample component followed
by `" "`, then the target-row components separated by `" "`. -/
def rowStr (s t : List ℚ) : String :=
  catJoin (s.map (fun v => toString v ++ " ")) ++ sepJoin " " (t.map toString)

/-- A line as the specification describes it: the components of a row,
space-separated. -/
def specLine (vs : List ℚ) : String :=
  sepJoin " " (vs.map toString)

/-- `GPModel::save_data(filename)`: the text written to the stream, built
from `_gp_models[0]->samples()` and the cached `_observations`.  `none`
models the out-of-bounds accesses (`_gp_models[0]` on an empty regressor
vector, `observations(i, j)` past the cached row count, a sample shorter
than `samples[0]`); the inner loop bound is `samples[0].size()` for every
row, hence the `take`. -/
def saveData {GP : Type} (ops : GPOps GP) (st : GPModelState GP) : Option String :=
  match st.gp_models with
  | [] => none
  | g0 :: _ =>
    match ops.samples g0 with
    | [] => some ""
    | s0 :: rest =>
      let samples := s0 :: rest
      if st.observations.length < samples.length then none
      else if samples.any (fun s => s.length != s0.length) then none
      else some (sepJoin "\n"
        ((List.range samples.length).map (fun i =>
          rowStr ((samples.getD i []).take s0.length) (st.observations.getD i []))))

/-! ## The mean-function-only variant `blackdrops::MIModel` -/

/-- Operations of the opaque parametric mean function used by `MIModel`
(construction with the input size, hyperparameter access, evaluation
`_mean(x, x)`). -/
structure MIOps (M : Type) where
  make : Nat → M
  h_params : M → List ℚ
  set_h_params : M → List ℚ → M
  evalMean : M → List ℚ → List ℚ → List ℚ

/-- State of `blackdrops::MIModel`: raw sample and target lists, the mean
function, and the `_init` flag. -/
structure MIState (M : Type) where
  samples : List (List ℚ)
  observations : List (List ℚ)
  mean : M
  initFlag : Bool
  deriving DecidableEq, Repr

/-- `MIModel::predict(x, _)`: evaluate the mean function at `(x, x)` and
pair it with `Eigen::VectorXd::Zero(mu.size())`. -/
def MIpredict {M : Type} (ops : MIOps M) (st : MIState M) (x : List ℚ) :
    List ℚ × List ℚ :=
  let mu := ops.evalMean st.mean x x
  (mu, List.replicate mu.length 0)

/-! ## A concrete scalar regressor for closed evaluations

`SimGP` is a minimal data-only instantiation of the opaque regressor
capability, used to evaluate the ensemble code on concrete inputs. -/

/-- A concrete scalar regressor: records its input dimension, the samples
and the target column it was fit on, and whether it has been fit. -/
structure SimGP where
  input_dim : Nat
  fitSamples : List (List ℚ)
  fitTargets : List ℚ
  fitted : Bool
  deriving DecidableEq, Repr

/-- Concrete regressor operations whose fit always succeeds: `compute`
records the samples and targets, `optimize` is the identity, `query`
answers with the last recorded target (or 0) and unit variance. -/
def simOps : GPOps SimGP where
  make := fun d => ⟨d, [], [], false⟩
  compute := fun g s t _ => some ⟨g.input_dim, s, t, true⟩
  optimize := fun g => some g
  query := fun g _ => ([g.fitTargets.headD 0], 1)
  samples := fun g => g.fitSamples

/-- Concrete regressor operations whose fit always fails (a numerical
`FitFailureError` in every dimension). -/
def failOps : GPOps SimGP where
  make := fun d => ⟨d, [], [], false⟩
  compute := fun _ _ _ _ => none
  optimize := fun g => some g
  query := fun g _ => ([g.fitTargets.headD 0], 1)
  samples := fun g => g.fitSamples

/-- Opaque `Eigen::colwise_sig` stand-in for concrete evaluations. -/
def simSig : List (List ℚ) → List ℚ := fun _ => []

/-- Concrete template parameters: one output dimension, one state
dimension, one action dimension, zero noise. -/
def simP : BParams := ⟨1, 1, 1, 0⟩

/-- The state carried by a `fitFailed` outcome, if any (projection used to
inspect `learn` results on concrete inputs). -/
def LearnResult.failedState {GP : Type} : LearnResult GP → Option (GPModelState GP)
  | LearnResult.fitFailed st => some st
  | _ => none

/-- The state carried by an `ok` outcome, if any. -/
def LearnResult.okState {GP : Type} : LearnResult GP → Option (GPModelState GP)
  | LearnResult.ok st => some st
  | _ => none

/-- Concrete transition `([1], [2], [3])`. -/
def tA : Transition := ⟨[1], [2], [3]⟩

/-- Concrete transition `([4], [5], [6])`. -/
def tB : Transition := ⟨[4], [5], [6]⟩

/-- Concrete transition `([7], [8], [9])`. -/
def tC : Transition := ⟨[7], [8], [9]⟩

/-- The ensemble state produced by a successful
`learn simP simOps simSig (initState simP simOps) [tA, tB] false`: one
fitted regressor, cached targets `[[3], [6]]`, and the diagnostics of the
sample matrix `[[1, 2], [4, 5]]`. -/
def stFitted : GPModelState SimGP :=
  ⟨[⟨1, [[1, 2], [4, 5]], [3, 6], true⟩], [[3], [6]], [5/2, 7/2], [], [4, 5]⟩

/-- The ensemble state left behind when a fit failure aborts
`learn simP failOps simSig _ [tC] false`: one freshly re-created unfitted
regressor, the new cached targets and the new diagnostics. -/
def stFailC3 : GPModelState SimGP := ⟨[⟨1, [], [], false⟩], [[9]], [7, 8], [], [7, 8]⟩
/-- The state produced by `learn simP simOps simSig stFitted [tC] true`:
regressors untouched, targets and diagnostics refreshed from `[tC]`. -/
def stLimC6 : GPModelState SimGP :=
  ⟨[⟨1, [[1, 2], [4, 5]], [3, 6], true⟩], [[9]], [7, 8], [], [7, 8]⟩

/-- The state produced by
`learn simP simOps simSig (initState simP simOps) [tA, tB] true`. -/
def stLimC7 : GPModelState SimGP :=
  ⟨[⟨1, [], [], false⟩], [[3], [6]], [5/2, 7/2], [], [4, 5]⟩

/-- The state produced by `learn simP simOps simSig stFitted [tC, tC] true`:
the old fitted regressor (samples `[[1, 2], [4, 5]]`, targets `[3, 6]`) next
to the freshly overwritten target cache `[[9], [9]]`. -/
def stMixC10 : GPModelState SimGP :=
  ⟨[⟨1, [[1, 2], [4, 5]], [3, 6], true⟩], [[9], [9]], [7, 8], [], [7, 8]⟩

/-! ## General lemmas -/

theorem getD_map_lt {α β : Type} (f : α → β) (l : List α) (i : Nat) (hi : i < l.length)
    (dA : α) (dB : β) : (l.map f).getD i dB = f (l.getD i dA) := by
  induction l generalizing i with
  | nil => simp at hi
  | cons a as ih =>
    cases i with
    | zero => simp
    | succ n =>
      simp only [List.map_cons, List.getD_cons_succ]
      exact ih n (by simpa using hi)

/-- When every assembled sample already has exactly
`model_input_dim + action_dim` entries, the `samp` block of `learn` is the
whole assembled sample matrix. -/
theorem sampBlock_eq_samples (P : BParams) (tr : List Transition)
    (h : ∀ t ∈ tr, (sampleOf t).length = P.model_input_dim + P.action_dim) :
    sampBlock P tr = tr.map sampleOf := by
  unfold sampBlock
  rw [List.map_map]
  apply List.map_congr_left
  intro t ht
  simp only [Function.comp_apply]
  rw [← h t ht, List.take_length]

/-- A successful fit fan-out returns exactly as many regressors as it was
given. -/
theorem fitModels_ok_length {GP : Type} (ops : GPOps GP) (s : List (List ℚ)) (n : ℚ) :
    ∀ (ms : List GP) (cs : List (List ℚ)) (l : List GP),
      fitModels ops s n ms cs = Except.ok l → l.length = ms.length := by
  intro ms
  induction ms with
  | nil => intro cs l h; cases cs <;> simp [fitModels] at h <;> simp [h.symm]
  | cons g gs ih =>
    intro cs l h
    cases cs with
    | nil => simp [fitModels] at h; simp [h.symm]
    | cons c cs' =>
      unfold fitModels at h
      cases hd : fitDim ops s n g c with
      | none => simp [hd] at h
      | some g' =>
        cases hrec : fitModels ops s n gs cs' with
        | error rest => simp [hd, hrec] at h
        | ok rest =>
          simp [hd, hrec] at h
          have := ih cs' rest hrec
          simp [h.symm, List.length_cons, this]

/-- A failed fit fan-out also leaves exactly as many regressors as it was
given (the exception does not shrink `_gp_models`). -/
theorem fitModels_error_length {GP : Type} (ops : GPOps GP) (s : List (List ℚ)) (n : ℚ) :
    ∀ (ms : List GP) (cs : List (List ℚ)) (l : List GP),
      fitModels ops s n ms cs = Except.error l → l.length = ms.length := by
  intro ms
  induction ms with
  | nil => intro cs l h; cases cs <;> simp [fitModels] at h
  | cons g gs ih =>
    intro cs l h
    cases cs with
    | nil => simp [fitModels] at h
    | cons c cs' =>
      unfold fitModels at h
      cases hd : fitDim ops s n g c with
      | none => simp [hd] at h; simp [h.symm]
      | some g' =>
        cases hrec : fitModels ops s n gs cs' with
        | ok rest => simp [hd, hrec] at h
        | error rest =>
          simp [hd, hrec] at h
          have := ih cs' rest hrec
          simp [h.symm, List.length_cons, this]

/-- Under the regressor contract, a successful per-dimension fit leaves the
regressor holding exactly the samples it was fit on. -/
theorem fitDim_samples {GP : Type} {ops : GPOps GP} (hC : GPContract ops)
    (s : List (List ℚ)) (n : ℚ) (g g' : GP) (c : List ℚ)
    (h : fitDim ops s n g c = some g') : ops.samples g' = s := by
  unfold fitDim at h
  cases hc : ops.compute g s c n with
  | none => simp [hc] at h
  | some g1 =>
    simp only [hc, Option.bind_some] at h
    exact (hC.optimize_samples g1 g' h).trans (hC.compute_samples g s c n g1 hc)

/-- Under the regressor contract, the first regressor returned by a
successful fit fan-out holds exactly the sample list that was fanned out. -/
theorem fitModels_ok_head {GP : Type} {ops : GPOps GP} (hC : GPContract ops)
    (s : List (List ℚ)) (n : ℚ) (g : GP) (gs : List GP) (c : List ℚ) (cs : List (List ℚ))
    (l : List GP) (h : fitModels ops s n (g :: gs) (c :: cs) = Except.ok l) :
    ∃ g' rest, l = g' :: rest ∧ ops.samples g' = s := by
  unfold fitModels at h
  cases hd : fitDim ops s n g c with
  | none => simp [hd] at h
  | some g' =>
    have hs := fitDim_samples hC s n g g' c hd
    cases hrec : fitModels ops s n gs cs with
    | ok rest => simp [hd, hrec] at h; exact ⟨g', rest, h.symm, hs⟩
    | error rest => simp [hd, hrec] at h

/-- Inversion of a normally returning `learn(_, only_limits = true)` call:
the input was non-empty and the resulting state keeps the regressors while
overwriting the cached targets and all three diagnostics. -/
theorem learn_limits_ok_inv {GP : Type} (P : BParams) (ops : GPOps GP)
    (sig : List (List ℚ) → List ℚ) (st st' : GPModelState GP) (tr : List Transition)
    (h : learn P ops sig st tr true = LearnResult.ok st') :
    tr ≠ [] ∧
      st' = ⟨st.gp_models, tr.map Transition.target, colwiseMean (sampBlock P tr),
             sig (sampBlock P tr), limitsOf (sampBlock P tr)⟩ := by
  match tr with
  | [] => simp [learn] at h
  | t0 :: rest =>
    unfold learn at h
    by_cases h1 : ((t0 :: rest).any fun t => t.target.length != t0.target.length) <;>
      simp only [h1, if_true, if_false, reduceIte] at h
    · cases h
    by_cases h2 : (((t0 :: rest).map sampleOf).any fun s =>
        s.length != t0.state.length + t0.action.length) <;>
      simp only [h2, if_true, if_false, reduceIte] at h
    · cases h
    by_cases h3 : t0.state.length + t0.action.length < P.model_input_dim + P.action_dim <;>
      simp only [h3, if_true, if_false, reduceIte] at h
    · cases h
    refine ⟨by simp, ?_⟩
    cases h
    rfl

/-- Inversion of a `learn(_, only_limits = false)` call that did not crash:
the dimension conditions all hold and the result is either a normal return
with the freshly fitted regressors or a `fitFailed` with the partially
refitted fresh regressors — in both cases the cached targets and the
diagnostics are overwritten and the previous regressors are gone. -/
theorem learn_fit_inv {GP : Type} (P : BParams) (ops : GPOps GP)
    (sig : List (List ℚ) → List ℚ) (st : GPModelState GP) (t0 : Transition)
    (rest : List Transition) (r : LearnResult GP)
    (h : learn P ops sig st (t0 :: rest) false = r)
    (hr : r ≠ LearnResult.crash) :
    (∀ t ∈ t0 :: rest, t.target.length = t0.target.length) ∧
    (∀ t ∈ t0 :: rest, (sampleOf t).length = t0.state.length + t0.action.length) ∧
    t0.state.length + t0.action.length = P.model_input_dim + P.action_dim ∧
    t0.target.length = P.model_pred_dim ∧
    ((∃ ms, fitModels ops ((t0 :: rest).map sampleOf) P.noise (initModels P ops)
        ((List.range t0.target.length).map (fun j => column ((t0 :: rest).map Transition.target) j))
        = Except.ok ms ∧
      r = LearnResult.ok ⟨ms, (t0 :: rest).map Transition.target,
            colwiseMean (sampBlock P (t0 :: rest)), sig (sampBlock P (t0 :: rest)),
            limitsOf (sampBlock P (t0 :: rest))⟩) ∨
     (∃ ms, fitModels ops ((t0 :: rest).map sampleOf) P.noise (initModels P ops)
        ((List.range t0.target.length).map (fun j => column ((t0 :: rest).map Transition.target) j))
        = Except.error ms ∧
      r = LearnResult.fitFailed ⟨ms, (t0 :: rest).map Transition.target,
            colwiseMean (sampBlock P (t0 :: rest)), sig (sampBlock P (t0 :: rest)),
            limitsOf (sampBlock P (t0 :: rest))⟩)) := by
  unfold learn at h
  by_cases h1 : ((t0 :: rest).any fun t => t.target.length != t0.target.length) <;>
    simp only [h1, if_true, if_false, reduceIte] at h
  · exact absurd h.symm hr
  by_cases h2 : (((t0 :: rest).map sampleOf).any fun s =>
      s.length != t0.state.length + t0.action.length) <;>
    simp only [h2, if_true, if_false, reduceIte] at h
  · exact absurd h.symm hr
  by_cases h3 : t0.state.length + t0.action.length < P.model_input_dim + P.action_dim <;>
    simp only [h3, if_true, if_false, reduceIte] at h
  · exact absurd h.symm hr
  by_cases h4 : (t0.state.length + t0.action.length != P.model_input_dim + P.action_dim
      || t0.target.length != P.model_pred_dim) <;>
    simp only [h4, Bool.false_eq_true, if_true, if_false, reduceIte] at h
  · exact absurd h.symm hr
  have hta : ∀ t ∈ t0 :: rest, t.target.length = t0.target.length := by
    intro t ht
    have := List.any_eq_false.mp (Bool.not_eq_true _ |>.mp h1) t ht
    simpa using this
  have hsa : ∀ t ∈ t0 :: rest, (sampleOf t).length = t0.state.length + t0.action.length := by
    intro t ht
    have := List.any_eq_false.mp (Bool.not_eq_true _ |>.mp h2) (sampleOf t) (List.mem_map_of_mem _ ht)
    simpa using this
  have h4' : t0.state.length + t0.action.length = P.model_input_dim + P.action_dim ∧
      t0.target.length = P.model_pred_dim := by
    have := Bool.not_eq_true _ |>.mp h4
    simp only [Bool.or_eq_false_iff, bne_eq_false_iff_eq] at this
    exact this
  refine ⟨hta, hsa, h4'.1, h4'.2, ?_⟩
  cases hfm : fitModels ops ((t0 :: rest).map sampleOf) P.noise (initModels P ops)
      ((List.range t0.target.length).map (fun j => column ((t0 :: rest).map Transition.target) j)) with
  | ok ms => left; exact ⟨ms, rfl, by rw [← h, hfm]⟩
  | error ms => right; exact ⟨ms, rfl, by rw [← h, hfm]⟩


/-- The concrete always-succeeding regressor operations satisfy the
scalar-regressor contract. -/
theorem simOps_contract : GPContract simOps := by
  constructor
  · intro g s t n g' h
    simp only [simOps, Option.some_inj] at h
    subst h
    rfl
  · intro g g' h
    simp only [simOps, Option.some_inj] at h
    subst h
    rfl

theorem getD_map_get {α β : Type} (f : α → β) (l : List α) (i : Nat) (h : i < l.length)
    (dB : β) : (l.map f).getD i dB = f (l.get ⟨i, h⟩) := by
  rw [List.getD_eq_getElem?_getD, List.getElem?_map,
    List.getElem?_eq_getElem h]
  rfl

theorem sepJoin_cons (sep x : String) (xs : List String) (h : xs ≠ []) :
    sepJoin sep (x :: xs) = x ++ sep ++ sepJoin sep xs := by
  cases xs with
  | nil => exact absurd rfl h
  | cons y ys => rfl

theorem rowStr_eq_specLine (s t : List ℚ) (ht : t ≠ []) :
    rowStr s t = specLine (s ++ t) := by
  induction s with
  | nil => simp [rowStr, specLine, catJoin]
  | cons a s' ih =>
    have hne : (s' ++ t).map toString ≠ [] := by
      simp only [ne_eq, List.map_eq_nil_iff, List.append_eq_nil]
      intro ⟨_, h2⟩
      exact ht h2
    have h1 : specLine (a :: s' ++ t) = toString a ++ " " ++ specLine (s' ++ t) := by
      rw [specLine, List.cons_append, List.map_cons, sepJoin_cons _ _ _ hne]
      rfl
    rw [h1, ← ih]
    simp only [rowStr, List.map_cons, catJoin]
    simp [String.append_assoc]

theorem range_map_eq_map {α β : Type} (l : List α) (F : Nat → β) (G : α → β) (d : α)
    (h : ∀ i, i < l.length → F i = G (l.getD i d)) :
    (List.range l.length).map F = l.map G := by
  apply List.ext_getElem (by simp)
  intro i h1 h2
  simp only [List.getElem_map, List.getElem_range]
  rw [h i (by simpa using h2)]
  congr 1
  rw [List.getD_eq_getElem?_getD, List.getElem?_eq_getElem (by simpa using h2)]
  rfl

theorem getD_mem {α : Type} (l : List α) (i : Nat) (d : α) (h : i < l.length) :
    l.getD i d ∈ l := by
  rw [List.getD_eq_getElem?_getD, List.getElem?_eq_getElem h]
  exact List.getElem_mem h


/-! ## Claims -/

/-- Claim C1: for every non-empty transition sequence with consistent
dimensions on which `learn` returns normally, the assembly step produces a
sample list and a target matrix with as many samples as target rows as
transitions; sample `i` is the literal concatenation of transition `i`'s
state and action, and target row `i` is transition `i`'s target vector. -/
theorem C1_assemble_correct {GP : Type} (P : BParams) (ops : GPOps GP)
    (sig : List (List ℚ) → List ℚ) (st st' : GPModelState GP) (tr : List Transition)
    (hC : GPContract ops) (hd : 0 < P.model_pred_dim)
    (hok : learn P ops sig st tr false = LearnResult.ok st') :
    st'.observations.length = tr.length ∧
    (∀ i, i < tr.length → st'.observations.getD i [] = (tr.getD i default).target) ∧
    (∃ g0 gs, st'.gp_models = g0 :: gs ∧ (ops.samples g0).length = tr.length ∧
      ∀ i, i < tr.length →
        (ops.samples g0).getD i [] =
          (tr.getD i default).state ++ (tr.getD i default).action) := by
  match tr with
  | [] => simp [learn] at hok
  | t0 :: rest =>
    obtain ⟨hta, hsa, hdim, hpred, hdisj⟩ :=
      learn_fit_inv P ops sig st t0 rest (LearnResult.ok st') hok (by simp)
    rcases hdisj with ⟨ms, hfm, hst⟩ | ⟨ms, _, hst⟩
    · have hst' : st' = ⟨ms, (t0 :: rest).map Transition.target,
          colwiseMean (sampBlock P (t0 :: rest)), sig (sampBlock P (t0 :: rest)),
          limitsOf (sampBlock P (t0 :: rest))⟩ := by
        cases hst; rfl
      subst hst'
      refine ⟨by simp, ?_, ?_⟩
      · intro i hi
        exact getD_map_lt Transition.target (t0 :: rest) i hi default []
      · obtain ⟨k, hk⟩ := Nat.exists_eq_succ_of_ne_zero (Nat.pos_iff_ne_zero.mp hd)
        have hpred1 : t0.target.length = k + 1 := by rw [hpred, hk]
        have hinit : initModels P ops =
            ops.make P.model_input_dim ::
              (List.range k).map (fun _ => ops.make P.model_input_dim) := by
          unfold initModels
          rw [hk, List.range_succ_eq_map, List.map_cons, List.map_map]
          rfl
        have hcols : (List.range t0.target.length).map
            (fun j => column ((t0 :: rest).map Transition.target) j) =
            column ((t0 :: rest).map Transition.target) 0 ::
              (List.range k).map (fun j =>
                column ((t0 :: rest).map Transition.target) (j + 1)) := by
          rw [hpred1, List.range_succ_eq_map, List.map_cons, List.map_map]
          rfl
        rw [hinit, hcols] at hfm
        obtain ⟨g0, gs, hms, hsamp⟩ := fitModels_ok_head hC _ _ _ _ _ _ _ hfm
        refine ⟨g0, gs, by simpa using hms, ?_, ?_⟩
        · rw [hsamp]; simp
        · intro i hi
          rw [hsamp]
          rw [getD_map_lt sampleOf (t0 :: rest) i hi default []]
          rfl
    · cases hst

/-- Witness for C1 at the concrete input `[tA, tB]`. -/
theorem C1_assemble_correct_witness :
    learn simP simOps simSig (initState simP simOps) [tA, tB] false = LearnResult.ok stFitted ∧
    (0 : Nat) < simP.model_pred_dim ∧
    (stFitted.observations.length = [tA, tB].length ∧
     (∀ i, i < [tA, tB].length →
        stFitted.observations.getD i [] = ([tA, tB].getD i default).target) ∧
     (∃ g0 gs, stFitted.gp_models = g0 :: gs ∧
        (simOps.samples g0).length = [tA, tB].length ∧
        ∀ i, i < [tA, tB].length →
          (simOps.samples g0).getD i [] =
            ([tA, tB].getD i default).state ++ ([tA, tB].getD i default).action)) :=
  ⟨by decide, by decide,
    C1_assemble_correct simP simOps simSig (initState simP simOps) stFitted [tA, tB]
      simOps_contract (by decide) (by decide)⟩

/-- Claim C2: `predict x` returns the mean vector whose entry `i` is the
mean answered by regressor `i`'s query on `x`, together with one scalar
uncertainty equal to the arithmetic mean of the per-dimension variances —
exactly the average of the variance vector of `predictm` (`predict_full`). -/
theorem C2_predict_collapses_variances {GP : Type} (ops : GPOps GP)
    (st : GPModelState GP) (x : List ℚ) (_hd : 0 < st.gp_models.length) :
    (predict ops st x).1 = (predictm ops st x).1 ∧
    (predict ops st x).2 = listMean (predictm ops st x).2 ∧
    (predictm ops st x).1.length = st.gp_models.length ∧
    (predictm ops st x).2.length = st.gp_models.length ∧
    (∀ i, ∀ h : i < st.gp_models.length,
      (predictm ops st x).1.getD i 0 = (ops.query (st.gp_models.get ⟨i, h⟩) x).1.headD 0 ∧
      (predictm ops st x).2.getD i 0 = (ops.query (st.gp_models.get ⟨i, h⟩) x).2) ∧
    (predict ops st x).2 =
      ((predictm ops st x).2).sum / (st.gp_models.length : ℚ) := by
  refine ⟨rfl, rfl, by simp [predictm], by simp [predictm], ?_, ?_⟩
  · intro i h
    exact ⟨getD_map_get _ st.gp_models i h 0, getD_map_get _ st.gp_models i h 0⟩
  · show listMean (predictm ops st x).2 = _
    have hlen : (predictm ops st x).2.length = st.gp_models.length := by simp [predictm]
    rw [listMean, hlen]

/-- Witness for C2 on the concrete fitted ensemble `stFitted`. -/
theorem C2_predict_collapses_variances_witness :
    (0 : Nat) < stFitted.gp_models.length ∧
    ((predict simOps stFitted [1, 0]).1 = (predictm simOps stFitted [1, 0]).1 ∧
     (predict simOps stFitted [1, 0]).2 = listMean (predictm simOps stFitted [1, 0]).2 ∧
     (predictm simOps stFitted [1, 0]).1.length = stFitted.gp_models.length ∧
     (predictm simOps stFitted [1, 0]).2.length = stFitted.gp_models.length ∧
     (∀ i, ∀ h : i < stFitted.gp_models.length,
       (predictm simOps stFitted [1, 0]).1.getD i 0 =
         (simOps.query (stFitted.gp_models.get ⟨i, h⟩) [1, 0]).1.headD 0 ∧
       (predictm simOps stFitted [1, 0]).2.getD i 0 =
         (simOps.query (stFitted.gp_models.get ⟨i, h⟩) [1, 0]).2) ∧
     (predict simOps stFitted [1, 0]).2 =
       ((predictm simOps stFitted [1, 0]).2).sum / (stFitted.gp_models.length : ℚ)) :=
  ⟨by decide, C2_predict_collapses_variances simOps stFitted [1, 0] (by decide)⟩

/-- Claim C8: `MIModel::predict` returns the mean-function evaluation at
`x` and an uncertainty vector that is identically zero, of the same length
as the mean vector. -/
theorem C8_mi_predict_zero_uncertainty {M : Type} (ops : MIOps M) (st : MIState M)
    (x : List ℚ) :
    (MIpredict ops st x).1 = ops.evalMean st.mean x x ∧
    (MIpredict ops st x).2 = List.replicate (MIpredict ops st x).1.length 0 ∧
    (MIpredict ops st x).2.length = (MIpredict ops st x).1.length ∧
    (∀ i, i < (MIpredict ops st x).1.length → (MIpredict ops st x).2.getD i 1 = 0) := by
  refine ⟨rfl, rfl, by simp [MIpredict], ?_⟩
  intro i hi
  simp only [MIpredict] at hi ⊢
  rw [List.getD_eq_getElem?_getD, List.getElem?_replicate]
  simp [hi]




/-- A fitting `learn` call computes its entire outcome from the input
alone: every field of the pre-call state is overwritten before it is ever
read, so two calls from different pre-call states agree definitionally. -/
theorem learn_false_state_independent {GP : Type} (P : BParams) (ops : GPOps GP)
    (sig : List (List ℚ) → List ℚ) (st1 st2 : GPModelState GP) (tr : List Transition) :
    learn P ops sig st1 tr false = learn P ops sig st2 tr false := rfl

/-- Claim C3 counterexample: a previously fitted ensemble (`stFitted`) on
which the fit fan-out fails is NOT left in its pre-call state — the
resulting `fitFailed` state holds a freshly created unfitted regressor
instead of the old fitted one. -/
theorem C3_counterexample :
    (learn simP failOps simSig stFitted [tC] false).failedState ≠ none ∧
    ((learn simP failOps simSig stFitted [tC] false).failedState.map
        GPModelState.gp_models) = some [⟨1, [], [], false⟩] ∧
    stFitted.gp_models ≠ [(⟨1, [], [], false⟩ : SimGP)] := by decide

/-- Claim C3 (amended): a `FitFailureError` during the fan-out does NOT
leave the ensemble in its pre-call state.  `learn` re-initialises the
regressor vector before fitting, so the post-failure state is identical for
every pre-call state (the old fit is unrecoverable), holds `model_pred_dim`
freshly created (at most partially fitted) regressors, and has the cached
targets already overwritten with the new transitions' targets. -/
theorem C3_fit_failure_discards_old_fit {GP : Type} (P : BParams) (ops : GPOps GP)
    (sig : List (List ℚ) → List ℚ) (st1 st2 st' : GPModelState GP) (tr : List Transition)
    (h : learn P ops sig st1 tr false = LearnResult.fitFailed st') :
    learn P ops sig st2 tr false = LearnResult.fitFailed st' ∧
    st'.gp_models.length = P.model_pred_dim ∧
    st'.observations = tr.map Transition.target := by
  have hind := (learn_false_state_independent P ops sig st2 st1 tr).trans h
  match tr with
  | [] => simp [learn] at h
  | t0 :: rest =>
    obtain ⟨-, -, -, -, hdisj⟩ :=
      learn_fit_inv P ops sig st1 t0 rest (LearnResult.fitFailed st') h (by simp)
    rcases hdisj with ⟨ms, -, hst⟩ | ⟨ms, hfm, hst⟩
    · cases hst
    · have hst' : st' = ⟨ms, (t0 :: rest).map Transition.target,
          colwiseMean (sampBlock P (t0 :: rest)), sig (sampBlock P (t0 :: rest)),
          limitsOf (sampBlock P (t0 :: rest))⟩ := by
        cases hst; rfl
      subst hst'
      refine ⟨hind, ?_, rfl⟩
      have hlen := fitModels_error_length ops _ P.noise _ _ _ hfm
      simpa [initModels] using hlen

/-- Witness for the amended C3: the failing call from the fitted state
`stFitted` and from a fresh state end in the same state `stFailC3`. -/
theorem C3_fit_failure_discards_old_fit_witness :
    learn simP failOps simSig stFitted [tC] false = LearnResult.fitFailed stFailC3 ∧
    (learn simP failOps simSig (initState simP failOps) [tC] false
        = LearnResult.fitFailed stFailC3 ∧
     stFailC3.gp_models.length = simP.model_pred_dim ∧
     stFailC3.observations = [tC].map Transition.target) :=
  ⟨by decide, C3_fit_failure_discards_old_fit simP failOps simSig stFitted
    (initState simP failOps) stFailC3 [tC] (by decide)⟩

/-- Claim C4 counterexample: on a never-learned ensemble, `predict`
returns a prediction (the fresh regressors' answers) and `save_data` writes
a (empty) file — no `NotFittedError` exists anywhere in the code. -/
theorem C4_counterexample :
    predict simOps (initState simP simOps) [1, 1] = ([0], 1) ∧
    saveData simOps (initState simP simOps) = some "" := by decide

/-- Claim C4 (amended): the code performs no fitted-state check.  On a
never-learned ensemble, `predict` fans the query out to the freshly
constructed regressors and returns their answers (one mean entry per output
dimension), and `save_data` opens the file and writes the empty stored
sample set, producing an empty file. -/
theorem C4_no_not_fitted_error {GP : Type} (P : BParams) (ops : GPOps GP) (x : List ℚ)
    (hd : 0 < P.model_pred_dim)
    (hfresh : ops.samples (ops.make P.model_input_dim) = []) :
    (predict ops (initState P ops) x).1.length = P.model_pred_dim ∧
    (∀ i, i < P.model_pred_dim → (predict ops (initState P ops) x).1.getD i 0
        = (ops.query (ops.make P.model_input_dim) x).1.headD 0) ∧
    saveData ops (initState P ops) = some "" := by
  have hrep : initModels P ops
      = List.replicate P.model_pred_dim (ops.make P.model_input_dim) := by
    unfold initModels
    rw [List.map_const']
    simp
  obtain ⟨k, hk⟩ := Nat.exists_eq_succ_of_ne_zero (Nat.pos_iff_ne_zero.mp hd)
  refine ⟨?_, ?_, ?_⟩
  · simp [predict, predictm, initState, initModels]
  · intro i hi
    show (((initState P ops).gp_models).map _).getD i 0 = _
    have : (initState P ops).gp_models = initModels P ops := rfl
    rw [this, hrep, List.map_replicate, List.getD_eq_getElem?_getD,
      List.getElem?_replicate]
    simp [hi]
  · show saveData ops (initState P ops) = some ""
    unfold saveData
    have : (initState P ops).gp_models = initModels P ops := rfl
    rw [this, hrep, hk, List.replicate_succ]
    simp [hfresh]

/-- Witness for the amended C4 on the concrete fresh ensemble. -/
theorem C4_no_not_fitted_error_witness :
    (0 : Nat) < simP.model_pred_dim ∧
    simOps.samples (simOps.make simP.model_input_dim) = [] ∧
    ((predict simOps (initState simP simOps) [1, 1]).1.length = simP.model_pred_dim ∧
     (∀ i, i < simP.model_pred_dim → (predict simOps (initState simP simOps) [1, 1]).1.getD i 0
         = (simOps.query (simOps.make simP.model_input_dim) [1, 1]).1.headD 0) ∧
     saveData simOps (initState simP simOps) = some "") :=
  ⟨by decide, by decide,
    C4_no_not_fitted_error simP simOps [1, 1] (by decide) (by decide)⟩

/-- Claim C5 counterexample: an empty input makes `learn` crash
(out-of-bounds access), not return `EmptyInputError`; a target-length
mismatch makes it crash (failed Eigen assertion), not return
`DimensionMismatchError`; and a state/action length mismatch whose
concatenated sample lengths happen to agree is accepted outright. -/
theorem C5_counterexample :
    learn simP simOps simSig (initState simP simOps) [] false = LearnResult.crash ∧
    learn simP simOps simSig (initState simP simOps) [] false ≠ LearnResult.emptyInputError ∧
    learn simP simOps simSig (initState simP simOps) [tA, ⟨[4], [5], [6, 7]⟩] true
      = LearnResult.crash ∧
    learn simP simOps simSig (initState simP simOps) [tA, ⟨[4], [5], [6, 7]⟩] true
      ≠ LearnResult.dimensionMismatchError ∧
    (learn simP simOps simSig (initState simP simOps)
      [⟨[1], [2], [3]⟩, ⟨[], [4, 5], [6]⟩] true).okState ≠ none := by decide

/-- Claim C5 (amended): `learn` performs no input validation.  An empty
transition sequence causes undefined out-of-bounds access (modelled as
`crash`) rather than `EmptyInputError`; a transition whose target length —
or whose concatenated state‖action length — differs from the first
transition's fails an unchecked Eigen assertion (`crash`) rather than
`DimensionMismatchError`. -/
theorem C5_no_validation_errors {GP : Type} (P : BParams) (ops : GPOps GP)
    (sig : List (List ℚ) → List ℚ) (st : GPModelState GP) (b : Bool)
    (t0 : Transition) (rest : List Transition) (tr : List Transition)
    (htr : tr = t0 :: rest) :
    learn P ops sig st [] b = LearnResult.crash ∧
    ((∃ t ∈ tr, t.target.length ≠ t0.target.length) →
      learn P ops sig st tr b = LearnResult.crash) ∧
    ((∃ t ∈ tr, (sampleOf t).length ≠ (sampleOf t0).length) →
      learn P ops sig st tr b = LearnResult.crash) := by
  subst htr
  refine ⟨rfl, ?_, ?_⟩
  · rintro ⟨t, ht, hne⟩
    have h1 : ((t0 :: rest).any fun t => t.target.length != t0.target.length) = true := by
      rw [List.any_eq_true]
      exact ⟨t, ht, by simpa using hne⟩
    unfold learn
    simp only [h1, if_true, reduceIte]
  · rintro ⟨t, ht, hne⟩
    by_cases h1 : ((t0 :: rest).any fun t => t.target.length != t0.target.length)
    · unfold learn
      simp only [h1, if_true, reduceIte]
    · have hlen0 : (sampleOf t0).length = t0.state.length + t0.action.length := by
        simp [sampleOf]
      have h2 : (((t0 :: rest).map sampleOf).any fun s =>
          s.length != t0.state.length + t0.action.length) = true := by
        rw [List.any_eq_true]
        refine ⟨sampleOf t, List.mem_map_of_mem _ ht, ?_⟩
        rw [← hlen0]
        simpa using hne
      unfold learn
      simp only [h1, h2, if_true, if_false, reduceIte, Bool.false_eq_true]

/-- Witness for the amended C5 at a concrete mismatched input. -/
theorem C5_no_validation_errors_witness :
    ([tA, (⟨[4], [5], [6, 7]⟩ : Transition)] = tA :: [⟨[4], [5], [6, 7]⟩]) ∧
    (learn simP simOps simSig (initState simP simOps) [] true = LearnResult.crash ∧
     ((∃ t ∈ [tA, (⟨[4], [5], [6, 7]⟩ : Transition)], t.target.length ≠ tA.target.length) →
       learn simP simOps simSig (initState simP simOps)
         [tA, ⟨[4], [5], [6, 7]⟩] true = LearnResult.crash) ∧
     ((∃ t ∈ [tA, (⟨[4], [5], [6, 7]⟩ : Transition)],
         (sampleOf t).length ≠ (sampleOf tA).length) →
       learn simP simOps simSig (initState simP simOps)
         [tA, ⟨[4], [5], [6, 7]⟩] true = LearnResult.crash)) :=
  ⟨rfl, C5_no_validation_errors simP simOps simSig (initState simP simOps) true
    tA [⟨[4], [5], [6, 7]⟩] [tA, ⟨[4], [5], [6, 7]⟩] rfl⟩





/-- Claim C6: a `learn` call with `only_limits = true` that returns
normally recomputes and stores the diagnostics (means, standard deviations,
limits) from the new input and returns without touching the regressors:
the regressor vector is exactly the pre-call one. -/
theorem C6_only_limits_preserves_regressors {GP : Type} (P : BParams) (ops : GPOps GP)
    (sig : List (List ℚ) → List ℚ) (st st' : GPModelState GP) (tr : List Transition)
    (h : learn P ops sig st tr true = LearnResult.ok st') :
    st'.gp_models = st.gp_models ∧
    st'.means = colwiseMean (sampBlock P tr) ∧
    st'.sigmas = sig (sampBlock P tr) ∧
    st'.limits = limitsOf (sampBlock P tr) := by
  obtain ⟨-, h2⟩ := learn_limits_ok_inv P ops sig st st' tr h
  subst h2
  exact ⟨rfl, rfl, rfl, rfl⟩

/-- Witness for C6 on the fitted ensemble `stFitted` refreshed with `[tC]`. -/
theorem C6_only_limits_preserves_regressors_witness :
    learn simP simOps simSig stFitted [tC] true = LearnResult.ok stLimC6 ∧
    (stLimC6.gp_models = stFitted.gp_models ∧
     stLimC6.means = colwiseMean (sampBlock simP [tC]) ∧
     stLimC6.sigmas = simSig (sampBlock simP [tC]) ∧
     stLimC6.limits = limitsOf (sampBlock simP [tC])) :=
  ⟨by decide,
    C6_only_limits_preserves_regressors simP simOps simSig stFitted stLimC6 [tC] (by decide)⟩

/-- Claim C7: the limit vector stored by `learn` equals the element-wise
maximum of the 5th and the 95th column-wise percentile of the absolute
values of the sample matrix, with one entry per input column
(`model_input_dim + action_dim` entries). -/
theorem C7_limits_are_max_of_percentiles {GP : Type} (P : BParams) (ops : GPOps GP)
    (sig : List (List ℚ) → List ℚ) (st st' : GPModelState GP) (tr : List Transition)
    (b : Bool) (h : learn P ops sig st tr b = LearnResult.ok st')
    (hw : ∀ t ∈ tr, (sampleOf t).length = P.model_input_dim + P.action_dim) :
    st'.limits = List.zipWith max (colwisePercentile (absMat (tr.map sampleOf)) 5)
        (colwisePercentile (absMat (tr.map sampleOf)) 95) ∧
    st'.limits.length = P.model_input_dim + P.action_dim := by
  have hsampeq : sampBlock P tr = tr.map sampleOf := sampBlock_eq_samples P tr hw
  have hmain : st'.limits = limitsOf (sampBlock P tr) ∧ tr ≠ [] := by
    cases b with
    | true =>
      obtain ⟨hne, h2⟩ := learn_limits_ok_inv P ops sig st st' tr h
      subst h2
      exact ⟨rfl, hne⟩
    | false =>
      match tr with
      | [] => simp [learn] at h
      | t0 :: rest =>
        obtain ⟨-, -, -, -, hdisj⟩ :=
          learn_fit_inv P ops sig st t0 rest (LearnResult.ok st') h (by simp)
        rcases hdisj with ⟨ms, -, hst⟩ | ⟨ms, -, hst⟩
        · have hst' : st' = ⟨ms, (t0 :: rest).map Transition.target,
              colwiseMean (sampBlock P (t0 :: rest)), sig (sampBlock P (t0 :: rest)),
              limitsOf (sampBlock P (t0 :: rest))⟩ := by
            cases hst; rfl
          subst hst'
          exact ⟨rfl, by simp⟩
        · cases hst
  obtain ⟨hlim, hne⟩ := hmain
  rw [hlim, hsampeq, limitsOf]
  refine ⟨rfl, ?_⟩
  match tr, hne with
  | t0 :: rest, _ =>
    rw [List.length_zipWith]
    have hcp : ∀ p : Nat, (colwisePercentile (absMat ((t0 :: rest).map sampleOf)) p).length
        = (sampleOf t0).length := by
      intro p
      simp [colwisePercentile, ncols, absMat]
    rw [hcp 5, hcp 95, Nat.min_self]
    exact hw t0 (by simp)

/-- Witness for C7 on the concrete input `[tA, tB]`. -/
theorem C7_limits_are_max_of_percentiles_witness :
    learn simP simOps simSig (initState simP simOps) [tA, tB] true = LearnResult.ok stLimC7 ∧
    (∀ t ∈ [tA, tB], (sampleOf t).length = simP.model_input_dim + simP.action_dim) ∧
    (stLimC7.limits = List.zipWith max
        (colwisePercentile (absMat ([tA, tB].map sampleOf)) 5)
        (colwisePercentile (absMat ([tA, tB].map sampleOf)) 95) ∧
     stLimC7.limits.length = simP.model_input_dim + simP.action_dim) :=
  ⟨by decide, by decide,
    C7_limits_are_max_of_percentiles simP simOps simSig (initState simP simOps) stLimC7
      [tA, tB] true (by decide) (by decide)⟩


/-- Claim C9: after a successful fitting `learn`, `save_data` writes one
line per stored training row, in row order, each line being that sample's
components followed by the corresponding stored target row's components,
space-separated, with lines newline-delimited. -/
theorem C9_save_pairs_samples_with_targets {GP : Type} (P : BParams) (ops : GPOps GP)
    (sig : List (List ℚ) → List ℚ) (st st' : GPModelState GP) (tr : List Transition)
    (hC : GPContract ops) (hd : 0 < P.model_pred_dim)
    (hok : learn P ops sig st tr false = LearnResult.ok st') :
    saveData ops st' = some (sepJoin "\n"
      (tr.map (fun t => specLine (sampleOf t ++ t.target)))) := by
  match tr with
  | [] => simp [learn] at hok
  | t0 :: rest =>
    obtain ⟨hta, hsa, hdim, hpred, hdisj⟩ :=
      learn_fit_inv P ops sig st t0 rest (LearnResult.ok st') hok (by simp)
    rcases hdisj with ⟨ms, hfm, hst⟩ | ⟨ms, _, hst⟩
    · have hst' : st' = ⟨ms, (t0 :: rest).map Transition.target,
          colwiseMean (sampBlock P (t0 :: rest)), sig (sampBlock P (t0 :: rest)),
          limitsOf (sampBlock P (t0 :: rest))⟩ := by
        cases hst; rfl
      subst hst'
      obtain ⟨k, hk⟩ := Nat.exists_eq_succ_of_ne_zero (Nat.pos_iff_ne_zero.mp hd)
      have hpred1 : t0.target.length = k + 1 := by rw [hpred, hk]
      have hinit : initModels P ops =
          ops.make P.model_input_dim ::
            (List.range k).map (fun _ => ops.make P.model_input_dim) := by
        unfold initModels
        rw [hk, List.range_succ_eq_map, List.map_cons, List.map_map]
        rfl
      have hcols : (List.range t0.target.length).map
          (fun j => column ((t0 :: rest).map Transition.target) j) =
          column ((t0 :: rest).map Transition.target) 0 ::
            (List.range k).map (fun j =>
              column ((t0 :: rest).map Transition.target) (j + 1)) := by
        rw [hpred1, List.range_succ_eq_map, List.map_cons, List.map_map]
        rfl
      rw [hinit, hcols] at hfm
      obtain ⟨g0, gs, hms, hsamp⟩ := fitModels_ok_head hC _ _ _ _ _ _ _ hfm
      subst hms
      -- now compute saveData
      have hsamp' : ops.samples g0 = sampleOf t0 :: rest.map sampleOf := by
        rw [hsamp]; rfl
      have hguard1 : ¬ (((t0 :: rest).map Transition.target).length
          < (sampleOf t0 :: rest.map sampleOf).length) := by
        simp
      have hguard2 : ((sampleOf t0 :: rest.map sampleOf).any
          (fun s => s.length != (sampleOf t0).length)) = false := by
        rw [← List.map_cons, List.any_eq_false]
        intro s hs
        obtain ⟨t, ht, hts⟩ := List.mem_map.mp hs
        subst hts
        simp only [bne_iff_ne, ne_eq, not_not]
        rw [hsa t ht, hsa t0 (by simp)]
      show saveData ops ⟨g0 :: gs, (t0 :: rest).map Transition.target, _, _, _⟩ = _
      unfold saveData
      simp only [hsamp', hguard1, hguard2, if_false, reduceIte, Bool.false_eq_true]
      congr 1
      congr 1
      rw [← List.map_cons sampleOf t0 rest, List.length_map]
      apply range_map_eq_map (t0 :: rest) _ _ default
      intro i hi
      have hsi : ((t0 :: rest).map sampleOf).getD i [] = sampleOf ((t0 :: rest).getD i default) :=
        getD_map_lt sampleOf (t0 :: rest) i hi default []
      have hti : ((t0 :: rest).map Transition.target).getD i []
          = ((t0 :: rest).getD i default).target :=
        getD_map_lt Transition.target (t0 :: rest) i hi default []
      have hmem : (t0 :: rest).getD i default ∈ t0 :: rest := getD_mem _ i default hi
      have hlen_i : (sampleOf ((t0 :: rest).getD i default)).length = (sampleOf t0).length := by
        rw [hsa _ hmem, hsa t0 (by simp)]
      rw [hsi, hti, ← hlen_i, List.take_length]
      apply rowStr_eq_specLine
      have : ((t0 :: rest).getD i default).target.length = k + 1 := by
        rw [hta _ hmem, hpred1]
      intro hnil
      rw [hnil] at this
      simp at this
    · cases hst



/-- Witness for C9 on the fitted ensemble `stFitted`. -/
theorem C9_save_pairs_samples_with_targets_witness :
    learn simP simOps simSig (initState simP simOps) [tA, tB] false = LearnResult.ok stFitted ∧
    (0 : Nat) < simP.model_pred_dim ∧
    saveData simOps stFitted = some (sepJoin "\n"
      ([tA, tB].map (fun t => specLine (sampleOf t ++ t.target)))) :=
  ⟨by decide, by decide,
    C9_save_pairs_samples_with_targets simP simOps simSig (initState simP simOps) stFitted
      [tA, tB] simOps_contract (by decide) (by decide)⟩

/-- Claim C10: `learn(_, only_limits = true)` overwrites the cached target
matrix with the new transitions' targets before the early return, while the
regressors (and hence their stored samples) stay as fitted before — so the
`observations` accessor and `save_data` afterwards pair the old samples
with the new, unrelated target rows. -/
theorem C10_only_limits_overwrites_targets {GP : Type} (P : BParams) (ops : GPOps GP)
    (sig : List (List ℚ) → List ℚ) (st st' : GPModelState GP) (tr2 : List Transition)
    (g0 : GP) (gs : List GP) (s0 : List ℚ) (srest : List (List ℚ))
    (h : learn P ops sig st tr2 true = LearnResult.ok st')
    (hgp : st.gp_models = g0 :: gs)
    (hS : ops.samples g0 = s0 :: srest)
    (hlen : ∀ s ∈ s0 :: srest, s.length = s0.length)
    (hcount : (s0 :: srest).length ≤ tr2.length) :
    st'.observations = tr2.map Transition.target ∧
    st'.gp_models = st.gp_models ∧
    saveData ops st' = some (sepJoin "\n"
      ((List.range (s0 :: srest).length).map (fun i =>
        rowStr ((s0 :: srest).getD i []) ((tr2.getD i default).target)))) := by
  obtain ⟨hne, h2⟩ := learn_limits_ok_inv P ops sig st st' tr2 h
  subst h2
  refine ⟨rfl, rfl, ?_⟩
  have hguard1 : ¬ ((tr2.map Transition.target).length < (s0 :: srest).length) := by
    rw [List.length_map]
    exact Nat.not_lt.mpr hcount
  have hguard2 : ((s0 :: srest).any (fun s => s.length != s0.length)) = false := by
    rw [List.any_eq_false]
    intro s hs
    simp only [bne_iff_ne, ne_eq, not_not]
    exact hlen s hs
  rw [hgp]
  unfold saveData
  simp only [hS, hguard1, hguard2, if_false, reduceIte, Bool.false_eq_true]
  congr 1
  congr 1
  apply List.map_congr_left
  intro i hi
  rw [List.mem_range] at hi
  have hi2 : i < tr2.length := lt_of_lt_of_le hi hcount
  rw [getD_map_lt Transition.target tr2 i hi2 default []]
  congr 1
  have hmem : (s0 :: srest).getD i [] ∈ s0 :: srest := getD_mem _ i [] hi
  rw [← hlen _ hmem, List.take_length]

/-- Witness for C10: refreshing the fitted `stFitted` with `[tC, tC]`
makes `save_data` pair the old samples `[1, 2]`, `[4, 5]` with the new
target `[9]`. -/
theorem C10_only_limits_overwrites_targets_witness :
    learn simP simOps simSig stFitted [tC, tC] true = LearnResult.ok stMixC10 ∧
    stFitted.gp_models = (⟨1, [[1, 2], [4, 5]], [3, 6], true⟩ : SimGP) :: [] ∧
    simOps.samples (⟨1, [[1, 2], [4, 5]], [3, 6], true⟩ : SimGP) = [1, 2] :: [[4, 5]] ∧
    (∀ s ∈ ([1, 2] :: [[4, 5]] : List (List ℚ)), s.length = ([1, 2] : List ℚ).length) ∧
    (([1, 2] :: [[4, 5]] : List (List ℚ)).length ≤ ([tC, tC] : List Transition).length) ∧
    (stMixC10.observations = [tC, tC].map Transition.target ∧
     stMixC10.gp_models = stFitted.gp_models ∧
     saveData simOps stMixC10 = some (sepJoin "\n"
       ((List.range ([1, 2] :: [[4, 5]] : List (List ℚ)).length).map (fun i =>
         rowStr (([1, 2] :: [[4, 5]] : List (List ℚ)).getD i [])
           (([tC, tC].getD i default).target))))) :=
  ⟨by decide, by decide, by decide, by decide, by decide,
    C10_only_limits_overwrites_targets simP simOps simSig stFitted stMixC10 [tC, tC]
      ⟨1, [[1, 2], [4, 5]], [3, 6], true⟩ [] [1, 2] [[4, 5]]
      (by decide) (by decide) (by decide) (by decide) (by decide)⟩

/-- The concrete mispairing of C10, printed: old samples, new targets. -/
theorem saveData_mispairing_example :
    saveData simOps stMixC10 = some ("1 2 9" ++ "\n" ++ "4 5 9") := by decide


end Blackdrops
